import Mathlib

/-!
# Verification of the cube/sphere phantom geometry classifiers

Shallow embedding of `visionrt-cube-dicom.py`. Coordinates are exact
rationals (the script computes with real-valued arithmetic; the spec
treats coordinates as real numbers). Every comparison `np.linalg.norm v <= r`
in the source is modelled by the exact equivalent `normSq v <= r ^ 2`,
which agrees with the source comparison for every `r >= 0` (the configured
radii are `bevel_radius = 8` and `sphere_diameter / 2 = 15 / 4`); theorems
that speak about Euclidean distances state them with `Real.sqrt` over the
squared form.

In the cube classifier's edge and corner cases the source subtracts a
two-dimensional `(k, 1)` column (`origin = cube_inside_bevel *
np.ones((3, 1))`, possibly boolean-masked) from a one-dimensional `(k,)`
point, which numpy broadcasts to a `k × k` matrix, and `np.linalg.norm`
of that matrix is its Frobenius norm — `√k` times the norm of the
componentwise difference vector the surrounding comments describe. The
embedding reproduces this broadcast faithfully (`broadcastSub`,
`frobSq`).
-/

namespace VisionRTCube

/-- A 3D point: the `loc` argument of `is_in_cube` / `is_in_sphere`
(a list of three coordinates x, y, z). -/
structure Point where
  x : ℚ
  y : ℚ
  z : ℚ
deriving DecidableEq, Repr

/-- The three coordinates of a point, in x, y, z order, as the numpy
array the script builds from `loc`. -/
def coords (p : Point) : List ℚ := [p.x, p.y, p.z]

/-- `np.abs(loc)`: elementwise absolute value. -/
def pabs (p : Point) : Point := ⟨|p.x|, |p.y|, |p.z|⟩

/-- Squared Euclidean norm of a vector given as a list of components:
models `np.linalg.norm(vec) ** 2`. -/
def normSq (v : List ℚ) : ℚ := (v.map (fun t => t ^ 2)).sum

/-! ## Configuration constants (lines 4-14 of the script) -/

/-- `cube_half_width = 75  # mm` -/
def cube_half_width : ℚ := 75

/-- `cube_inside_bevel = 67  # mm` -/
def cube_inside_bevel : ℚ := 67

/-- `bevel_radius = cube_half_width - cube_inside_bevel` -/
def bevel_radius : ℚ := cube_half_width - cube_inside_bevel

/-- `sphere_diameter = 7.5  # mm` -/
def sphere_diameter : ℚ := 15 / 2

/-- `sphere_centers`: the five configured sphere centers, in order. -/
def sphere_centers : List Point :=
  [⟨-10, -25, -30⟩, ⟨10, -15, -15⟩, ⟨0, 0, 0⟩, ⟨-20, 20, 10⟩, ⟨20, 30, 20⟩]

/-! ## Scalar sphere classifier (`is_in_sphere`, lines 42-64) -/

/-- `vec = loc - origin; dist = np.linalg.norm(vec)`: the squared distance
from `loc` to `origin`. -/
def distSq (loc origin : Point) : ℚ :=
  normSq [loc.x - origin.x, loc.y - origin.y, loc.z - origin.z]

/-- `is_in_sphere(loc)`: loop over `sphere_centers`, return `True` on the
first center with `dist <= sphere_diameter / 2`, else `False` after the
loop. The early-`return` loop is a short-circuit disjunction (`List.any`);
the norm comparison is taken in squared form (exact, radius `15/4 >= 0`). -/
def is_in_sphere (loc : Point) : Bool :=
  sphere_centers.any (fun origin =>
    decide (distSq loc origin ≤ (sphere_diameter / 2) ^ 2))

/-! ## Cube classifier (`is_in_cube`, lines 67-135) -/

/-- `tf_array = loc > cube_inside_bevel; loc[tf_array]`: the components of
the (absolute-valued) point strictly greater than `cube_inside_bevel`,
in x, y, z order, as produced by numpy boolean-mask indexing. -/
def over (a : Point) : List ℚ :=
  (coords a).filter (fun c => decide (cube_inside_bevel < c))

/-- `sum(loc > cube_inside_bevel)`: how many components of the
(absolute-valued) point exceed `cube_inside_bevel`. -/
def tf_count (a : Point) : ℕ :=
  (coords a).countP (fun c => decide (cube_inside_bevel < c))

/-- Numpy broadcasting of `v - origin_column`: the source builds
`origin = cube_inside_bevel * np.ones((3, 1))`, a two-dimensional
`(3, 1)` column. Subtracting a `(k, 1)` column of `cube_inside_bevel`
entries from a `(k,)` vector `v` broadcasts to the `k × k` matrix whose
row `i`, column `j` entry is `v[j] - cube_inside_bevel`: `k` identical
rows, each the componentwise difference. -/
def broadcastSub (v : List ℚ) : List (List ℚ) :=
  v.map (fun _ => v.map (fun c => c - cube_inside_bevel))

/-- Squared Frobenius norm of a 2-D array: `np.linalg.norm(m) ** 2` for a
matrix `m` (ord and axis left at their defaults) is the sum of the squares
of all entries. -/
def frobSq (m : List (List ℚ)) : ℚ := (m.map normSq).sum

/-- Case 4 squared distance as the source computes it:
`vec = loc[tf_array] - origin[tf_array]` subtracts the `(2, 1)` masked
column of `origin` from the `(2,)` masked point, broadcasting to a
`2 × 2` matrix, and `np.linalg.norm(vec)` is that matrix's Frobenius
norm — twice the squared norm of the intended 2-vector. -/
def edgeDistSq (a : Point) : ℚ :=
  frobSq (broadcastSub (over a))

/-- Case 5 squared distance as the source computes it: `vec = loc - origin`
subtracts the `(3, 1)` column `origin` from the `(3,)` point, broadcasting
to a `3 × 3` matrix, and `np.linalg.norm(vec)` is its Frobenius norm —
three times the squared norm of the intended 3-vector. -/
def cornerDistSq (a : Point) : ℚ :=
  frobSq (broadcastSub (coords a))

/-- `is_in_cube(loc, rounded_edges)`: the five-case cube classifier.
The Python function returns `True`/`False` from one of its branches and
implicitly returns `None` if every case falls through, so the embedding
returns an `Option Bool`, with `none` for the fall-through.
Branches in source order:
outside the bounding box (`any(loc > cube_half_width)`) -> `False`;
sharp mode -> `True`; all components `<= cube_inside_bevel` -> `True`;
exactly one over-threshold component (face region) -> `True`;
exactly two (edge region) -> compare the Frobenius norm of the broadcast
`2 × 2` difference matrix against `bevel_radius`;
exactly three (corner region) -> compare the Frobenius norm of the
broadcast `3 × 3` difference matrix against `bevel_radius`.
Norm comparisons are in squared form (exact, `bevel_radius = 8 >= 0`). -/
def is_in_cube (loc : Point) (rounded_edges : Bool := true) : Option Bool :=
  let a := pabs loc
  if (coords a).any (fun c => decide (cube_half_width < c)) then some false
  else if !rounded_edges then some true
  else if (coords a).all (fun c => decide (c ≤ cube_inside_bevel)) then some true
  else if tf_count a = 1 then some true
  else if tf_count a = 2 then
    if edgeDistSq a ≤ bevel_radius ^ 2 then some true else some false
  else if tf_count a = 3 then
    if cornerDistSq a ≤ bevel_radius ^ 2 then some true else some false
  else none

/-! ## Vectorized sphere classifier (`is_in_sphere_np`, lines 138-172)

`np.meshgrid(x, y, z, indexing="ij")` gives `XX[i,j,k] = x[i]`,
`YY[i,j,k] = y[j]`, `ZZ[i,j,k] = z[k]`; every subsequent numpy operation
(`-`, `np.square`, `+`, `<=`, `np.logical_or(..., out=...)`) is
elementwise, so the value of the result at index `(i,j,k)` is obtained by
running the per-sphere accumulation at the single grid point
`(x[i], y[j], z[k])`. The embedding builds the `(len x, len y, len z)`
boolean volume as nested lists with exactly that per-element accumulation. -/

/-- `np.square(DXX) + np.square(DYY) + np.square(DZZ)` at one grid point. -/
def quadSum (xi yj zk : ℚ) (origin : Point) : ℚ :=
  (xi - origin.x) ^ 2 + (yj - origin.y) ^ 2 + (zk - origin.z) ^ 2

/-- The per-grid-point accumulation: start from the `np.zeros(..., bool)`
value `false`; for each sphere center in order, compute
`is_in_this_sphere = quad_sum <= (sphere_diameter / 2) ** 2` and store
`np.logical_or(is_in_this_sphere, acc)` back into the accumulator. -/
def sphereAcc (xi yj zk : ℚ) : Bool :=
  sphere_centers.foldl
    (fun acc origin =>
      decide (quadSum xi yj zk origin ≤ (sphere_diameter / 2) ^ 2) || acc)
    false

/-- `is_in_sphere_np(x, y, z)`: the 3D boolean array of shape
`(len x, len y, len z)` whose `(i,j,k)` entry reports sphere membership of
the grid point `(x[i], y[j], z[k])`. -/
def is_in_sphere_np (x y z : List ℚ) : List (List (List Bool)) :=
  x.map (fun xi => y.map (fun yj => z.map (fun zk => sphereAcc xi yj zk)))

/-- Index a 3D boolean volume at `(i, j, k)` (defaulting out of range,
unused under the index bounds of the theorems). -/
def gridAt (A : List (List (List Bool))) (i j k : ℕ) : Bool :=
  ((A.getD i []).getD j []).getD k false

/-- Negate a coordinate when the flag is set: used to express sign-flips
of any subset of a point's coordinates. -/
def signFlip (s : Bool) (c : ℚ) : ℚ := if s then -c else c

/-! ## Spec-modelled configuration construction

The source keeps the geometry configuration as module-level constants
(lines 4-7) and has no constructor or validation code; the spec's
`GeometryParameters` component and its fail-fast construction are design
requirements with no counterpart under `src/`, so they are modelled here
from the spec's words. -/

/-- Modelled from the spec: the error kind surfaced for a degenerate
configuration (`InvalidConfiguration`), absent from the source. -/
inductive ConfigError where
  | InvalidConfiguration
deriving DecidableEq, Repr

/-- Modelled from the spec: the immutable configuration record
(`GeometryParameters`), absent from the source, carrying the cube
half-width and the inner bevel boundary from which `bevelRadius`
derives. -/
structure GeometryParameters where
  cubeHalfWidth : ℚ
  cubeInnerBevelBoundary : ℚ
deriving DecidableEq, Repr

/-- `bevelRadius = cubeHalfWidth - cubeInnerBevelBoundary`. -/
def GeometryParameters.bevelRadius (g : GeometryParameters) : ℚ :=
  g.cubeHalfWidth - g.cubeInnerBevelBoundary

/-- Modelled from the spec: `GeometryParameters` construction, absent from
the source, which must fail fast with an `InvalidConfiguration` kind when
`cubeInnerBevelBoundary > cubeHalfWidth` (equivalently a negative
`bevelRadius`) rather than produce a degenerate configuration. -/
def mkGeometryParameters (cubeHalfWidth cubeInnerBevelBoundary : ℚ) :
    Except ConfigError GeometryParameters :=
  if cubeHalfWidth < cubeInnerBevelBoundary then
    .error .InvalidConfiguration
  else
    .ok ⟨cubeHalfWidth, cubeInnerBevelBoundary⟩

end VisionRTCube
namespace VisionRTCube

lemma rat_sqrt_le_iff {s r : ℚ} (hr : 0 ≤ r) :
    Real.sqrt (s : ℝ) ≤ (r : ℝ) ↔ s ≤ r ^ 2 := by
  rw [Real.sqrt_le_left (by exact_mod_cast hr)]
  constructor <;> intro h <;> exact_mod_cast h

lemma bevel_radius_nonneg : (0 : ℚ) ≤ bevel_radius := by
  norm_num [bevel_radius, cube_half_width, cube_inside_bevel]

lemma is_in_cube_false_eq (p : Point) :
    is_in_cube p false =
      if cube_half_width < |p.x| ∨ cube_half_width < |p.y| ∨ cube_half_width < |p.z|
      then some false else some true := by
  simp [is_in_cube, coords, pabs]

lemma is_in_cube_true_eq (p : Point) :
    is_in_cube p true =
      if cube_half_width < |p.x| ∨ cube_half_width < |p.y| ∨ cube_half_width < |p.z|
      then some false
      else if |p.x| ≤ cube_inside_bevel ∧ |p.y| ≤ cube_inside_bevel ∧ |p.z| ≤ cube_inside_bevel
      then some true
      else if tf_count (pabs p) = 1 then some true
      else if tf_count (pabs p) = 2 then
        if edgeDistSq (pabs p) ≤ bevel_radius ^ 2 then some true else some false
      else if tf_count (pabs p) = 3 then
        if cornerDistSq (pabs p) ≤ bevel_radius ^ 2 then some true else some false
      else none := by
  simp [is_in_cube, coords, pabs]

lemma not_all_le_of_tf {p : Point} (h : tf_count (pabs p) ≠ 0) :
    ¬(|p.x| ≤ cube_inside_bevel ∧ |p.y| ≤ cube_inside_bevel ∧ |p.z| ≤ cube_inside_bevel) := by
  intro hall
  exact h (by
    simp [tf_count, coords, pabs, List.countP_eq_zero, not_lt, hall.1, hall.2.1, hall.2.2])

/-- Claim C2, divergence at the failing input `(70, 70, 70)` with
`rounded_edges = true`: the point satisfies the claim's hypotheses (all
absolute coordinates within `cube_half_width`, exactly three components
over `cube_inside_bevel`) and the Euclidean distance from
`(cube_inside_bevel, cube_inside_bevel, cube_inside_bevel)` to it, `√27`,
is at most `bevel_radius`, so the claim (and the source's own case-5
comment) requires true — but the classifier returns false, because case 5
broadcasts `loc - origin` to a `3 × 3` matrix and compares its Frobenius
norm, `√81 = 9 > 8`. -/
theorem corner_region_code_bug :
    is_in_cube ⟨70, 70, 70⟩ true = some false ∧
      Real.sqrt ((normSq ((coords (pabs ⟨70, 70, 70⟩)).map
          (fun c => c - cube_inside_bevel)) : ℝ)) ≤ (bevel_radius : ℝ) := by
  constructor
  · norm_num [is_in_cube_true_eq, tf_count, coords, pabs, cornerDistSq, edgeDistSq,
      frobSq, broadcastSub, over, normSq, cube_half_width, cube_inside_bevel,
      bevel_radius, abs_of_nonneg, List.countP_cons, List.countP_nil]
  · rw [rat_sqrt_le_iff bevel_radius_nonneg]
    norm_num [normSq, coords, pabs, cube_inside_bevel, bevel_radius,
      cube_half_width, abs_of_nonneg]

/-- Claim C3, divergence at the failing input `(72, 72, 0)` with
`rounded_edges = true`: the point satisfies the claim's hypotheses (all
absolute coordinates within `cube_half_width`, exactly two components
over `cube_inside_bevel`) and the Euclidean norm of the 2-vector from
`(cube_inside_bevel, cube_inside_bevel)` to the two over-threshold
components, `√50`, is at most `bevel_radius`, so the claim (and the
source's own case-4 comment) requires true — but the classifier returns
false, because case 4 broadcasts `loc[tf_array] - origin[tf_array]` to a
`2 × 2` matrix and compares its Frobenius norm, `√100 = 10 > 8`. -/
theorem edge_region_code_bug :
    is_in_cube ⟨72, 72, 0⟩ true = some false ∧
      Real.sqrt ((normSq ((over (pabs ⟨72, 72, 0⟩)).map
          (fun c => c - cube_inside_bevel)) : ℝ)) ≤ (bevel_radius : ℝ) := by
  constructor
  · norm_num [is_in_cube_true_eq, tf_count, coords, pabs, cornerDistSq, edgeDistSq,
      frobSq, broadcastSub, over, normSq, cube_half_width, cube_inside_bevel,
      bevel_radius, abs_of_nonneg, List.countP_cons, List.countP_nil]
  · rw [rat_sqrt_le_iff bevel_radius_nonneg]
    norm_num [normSq, over, coords, pabs, cube_inside_bevel, bevel_radius,
      cube_half_width, abs_of_nonneg, List.filter]

lemma all_le_of_tf_count_eq_zero {p : Point} (h : tf_count (pabs p) = 0) :
    |p.x| ≤ cube_inside_bevel ∧ |p.y| ≤ cube_inside_bevel ∧ |p.z| ≤ cube_inside_bevel := by
  rw [tf_count, List.countP_eq_zero] at h
  have hx := h ((pabs p).x) (by simp [coords])
  have hy := h ((pabs p).y) (by simp [coords])
  have hz := h ((pabs p).z) (by simp [coords])
  simp only [decide_eq_true_eq, not_lt, pabs] at hx hy hz
  exact ⟨hx, hy, hz⟩

lemma tf_count_le_three (p : Point) : tf_count (pabs p) ≤ 3 := by
  have h := List.countP_le_length
    (p := fun c => decide (cube_inside_bevel < c)) (l := coords (pabs p))
  simpa [coords] using h

/-- Claim C5: sharp-cube mode is exactly the bounding-box test with the
boundary counted as inside: `is_in_cube p false` returns true iff
`max |x| (max |y| |z|)` is at most `cube_half_width`. -/
theorem sharp_cube_is_bbox (p : Point) :
    (is_in_cube p false = some true) ↔
      max |p.x| (max |p.y| |p.z|) ≤ cube_half_width := by
  rw [is_in_cube_false_eq]
  split_ifs with h1
  · simp only [max_le_iff]
    constructor
    · intro h
      exact absurd h (by simp)
    · intro h
      exfalso
      rcases h1 with h1 | h1 | h1
      · exact absurd h.1 (not_le.mpr h1)
      · exact absurd h.2.1 (not_le.mpr h1)
      · exact absurd h.2.2 (not_le.mpr h1)
  · push_neg at h1
    simp [max_le_iff, h1.1, h1.2.1, h1.2.2]

/-- Claim C6: rounding only removes volume, never adds it: under the
configuration invariant `0 ≤ bevel_radius`, whenever
`is_in_cube p true` returns true, `is_in_cube p false` returns true. -/
theorem rounding_monotone (p : Point) (hb : (0 : ℚ) ≤ bevel_radius)
    (h : is_in_cube p true = some true) : is_in_cube p false = some true := by
  clear hb
  rw [is_in_cube_false_eq]
  rw [is_in_cube_true_eq] at h
  by_cases h1 : cube_half_width < |p.x| ∨ cube_half_width < |p.y| ∨ cube_half_width < |p.z|
  · rw [if_pos h1] at h
    simp at h
  · rw [if_neg h1]

/-- Claim C8: `is_in_cube` depends only on the absolute coordinates: on
every sign-flip of any subset of the coordinates, and for either value of
the `rounded_edges` flag, it returns the same result as on the original
point. -/
theorem sign_symmetry (p : Point) (r sx sy sz : Bool) :
    is_in_cube ⟨signFlip sx p.x, signFlip sy p.y, signFlip sz p.z⟩ r = is_in_cube p r := by
  have h : pabs ⟨signFlip sx p.x, signFlip sy p.y, signFlip sz p.z⟩ = pabs p := by
    cases sx <;> cases sy <;> cases sz <;> simp [pabs, signFlip, abs_neg]
  simp only [is_in_cube, h]

/-- Claim C10: the five-way case analysis of `is_in_cube` is exhaustive:
for every point and either flag value the function returns a boolean
(`some b`), never falling through all cases (`none`). -/
theorem cube_total (p : Point) (r : Bool) : ∃ b, is_in_cube p r = some b := by
  cases r
  · rw [is_in_cube_false_eq]
    split_ifs <;> exact ⟨_, rfl⟩
  · rw [is_in_cube_true_eq]
    split_ifs with h1 h2 h3 h4 h5 h6 h7
    · exact ⟨_, rfl⟩
    · exact ⟨_, rfl⟩
    · exact ⟨_, rfl⟩
    · exact ⟨_, rfl⟩
    · exact ⟨_, rfl⟩
    · exact ⟨_, rfl⟩
    · exact ⟨_, rfl⟩
    · exfalso
      have hne : tf_count (pabs p) ≠ 0 := fun h0 => h2 (all_le_of_tf_count_eq_zero h0)
      have hle := tf_count_le_three p
      omega

/-- Claim C7: `is_in_sphere p` returns true iff some configured sphere
center lies within Euclidean distance `sphere_diameter / 2` of `p`, with
the boundary case (distance equal to the radius) counted as inside; when
no sphere matches it returns false. -/
theorem sphere_membership (p : Point) :
    is_in_sphere p = true ↔
      ∃ origin ∈ sphere_centers,
        Real.sqrt ((distSq p origin : ℝ)) ≤ ((sphere_diameter / 2 : ℚ) : ℝ) := by
  rw [is_in_sphere, List.any_eq_true]
  refine exists_congr fun origin => and_congr_right fun _ => ?_
  rw [decide_eq_true_eq, rat_sqrt_le_iff (by norm_num [sphere_diameter])]

/-- Claim C4, divergence at the failing input `(70, 70, 70)` with
`rounded_edges = true`: with the configured parameters the classifier does
return false at `(72, 72, 72)` as the claim states, but it also returns
false at `(70, 70, 70)`, where the claim requires true — case 5 compares
the Frobenius norm of the broadcast `3 × 3` difference matrix (`√225 = 15`
and `√81 = 9`, both greater than `bevel_radius = 8`) instead of the
Euclidean corner distances `√75 ≈ 8.66` and `√27 ≈ 5.2`. -/
theorem corner_examples_on_code :
    is_in_cube ⟨72, 72, 72⟩ true = some false ∧
      is_in_cube ⟨70, 70, 70⟩ true = some false := by
  constructor <;>
    norm_num [is_in_cube_true_eq, tf_count, coords, pabs, cornerDistSq, edgeDistSq,
      frobSq, broadcastSub, normSq, over, cube_half_width, cube_inside_bevel,
      bevel_radius, abs_of_nonneg]

/-- Claim C9: constructing a geometry configuration with
`cubeInnerBevelBoundary > cubeHalfWidth` (a negative bevel radius) fails
fast at `GeometryParameters` construction with an `InvalidConfiguration`
error. -/
theorem degenerate_config_rejected (w b : ℚ) (h : w < b) :
    mkGeometryParameters w b = .error .InvalidConfiguration := by
  simp [mkGeometryParameters, h]

lemma foldl_or_eq_any {α : Type} (f : α → Bool) (l : List α) (b : Bool) :
    l.foldl (fun acc o => f o || acc) b = (l.any f || b) := by
  induction l generalizing b with
  | nil => simp
  | cons hd tl ih =>
    rw [List.foldl_cons, List.any_cons, ih]
    cases f hd <;> cases b <;> simp

lemma sphereAcc_eq_is_in_sphere (xi yj zk : ℚ) :
    sphereAcc xi yj zk = is_in_sphere ⟨xi, yj, zk⟩ := by
  rw [sphereAcc, foldl_or_eq_any, Bool.or_false, is_in_sphere]
  congr 1
  funext origin
  have h : quadSum xi yj zk origin = distSq ⟨xi, yj, zk⟩ origin := by
    simp only [quadSum, distSq, normSq, List.map_cons, List.map_nil, List.sum_cons,
      List.sum_nil]
    ring
  rw [h]

lemma getD_map_of_lt {α β : Type} (f : α → β) (l : List α) (i : ℕ) (h : i < l.length)
    (d : β) (d0 : α) : (l.map f).getD i d = f (l.getD i d0) := by
  rw [List.getD_eq_getElem?_getD, List.getD_eq_getElem?_getD, List.getElem?_map,
    List.getElem?_eq_getElem h]
  rfl

/-- Claim C1: the squared-distance vectorized path and the scalar
per-point sphere test agree at every grid point: for all coordinate
sequences `xs`, `ys`, `zs` and in-range indices `i`, `j`, `k`, entry
`(i, j, k)` of `is_in_sphere_np xs ys zs` equals
`is_in_sphere (xs[i], ys[j], zs[k])`. -/
theorem vectorized_scalar_agree (xs ys zs : List ℚ) (i j k : ℕ)
    (hi : i < xs.length) (hj : j < ys.length) (hk : k < zs.length) :
    gridAt (is_in_sphere_np xs ys zs) i j k
      = is_in_sphere ⟨xs.getD i 0, ys.getD j 0, zs.getD k 0⟩ := by
  rw [gridAt, is_in_sphere_np, getD_map_of_lt _ _ _ hi _ 0, getD_map_of_lt _ _ _ hj _ 0,
    getD_map_of_lt _ _ _ hk _ 0, sphereAcc_eq_is_in_sphere]

theorem vectorized_scalar_agree_witness :
    0 < [(1 : ℚ)].length ∧ 0 < [(2 : ℚ)].length ∧ 0 < [(3 : ℚ)].length ∧
      gridAt (is_in_sphere_np [(1 : ℚ)] [(2 : ℚ)] [(3 : ℚ)]) 0 0 0
        = is_in_sphere ⟨List.getD [(1 : ℚ)] 0 0, List.getD [(2 : ℚ)] 0 0,
            List.getD [(3 : ℚ)] 0 0⟩ :=
  ⟨by simp, by simp, by simp,
    vectorized_scalar_agree [1] [2] [3] 0 0 0 (by simp) (by simp) (by simp)⟩

theorem rounding_monotone_witness :
    (0 : ℚ) ≤ bevel_radius ∧ is_in_cube ⟨0, 0, 0⟩ true = some true ∧
      is_in_cube ⟨0, 0, 0⟩ false = some true := by
  have hb : (0 : ℚ) ≤ bevel_radius := bevel_radius_nonneg
  have h : is_in_cube ⟨0, 0, 0⟩ true = some true := by
    norm_num [is_in_cube_true_eq, cube_half_width, cube_inside_bevel]
  exact ⟨hb, h, rounding_monotone ⟨0, 0, 0⟩ hb h⟩

theorem degenerate_config_rejected_witness :
    (75 : ℚ) < 80 ∧
      mkGeometryParameters 75 80 = .error .InvalidConfiguration :=
  ⟨by norm_num, degenerate_config_rejected 75 80 (by norm_num)⟩

end VisionRTCube
